import Mathlib

/-!
Verification development for the SimpleHub scheduling orchestrator
(src/server/src/scheduler.js), a three-tier cron scheduler:
per-site jobs, per-category jobs and one global daily job.

Shallow embedding notes:
* The mutable module-level maps `jobs`, `categoryJobs` and the variable
  `globalScheduleJob` become the fields of `SchedState`.  A JS `Map` is
  modelled as an association list where `set` erases the key first, so
  the `Map` replace-on-set semantics is preserved literally.
* `async` functions that can reject (because `cron.schedule` throws on a
  malformed expression) return a pair of the mutated state and an
  optional error: the JS mutations performed before the throw survive
  the throw, which a plain `Except` would not capture.
* Store reads (`prisma.…`) at install time are modelled as fields of
  `InstallEnv`; at fire time they are modelled by `FireEnv`, whose
  `configsOk` / `sitesOk` flags model a store that throws when read,
  because the fired callback wraps everything in try/catch.
* `node-cron` is external, so expression validation is a parameter
  `cronValid : String → Bool`; `cron.schedule` throws exactly when the
  expression is invalid.
-/

/-- A row of the `Site` table, restricted to the fields the scheduler
reads (scheduler.js and the candidate filters). -/
structure Site where
  id : String
  name : String
  scheduleCron : Option String
  timezone : Option String
  pinned : Bool
  excludeFromBatch : Bool
deriving DecidableEq

/-- A row of the `ScheduleConfig` table (the global tier configuration),
with the fields scheduler.js reads: `enabled`, `overrideIndividual`,
`hour`, `minute`, `timezone`, `interval`, and the primary key `id`. -/
structure ScheduleConfig where
  id : String
  enabled : Bool
  overrideIndividual : Bool
  hour : Nat
  minute : Nat
  timezone : String
  interval : Nat
deriving DecidableEq

/-- Whitespace as stripped by the JS builtin `String.prototype.trim`
(space, tab and line terminators; the exotic Unicode space classes are
not needed for cron strings). -/
def isJsWhitespace (c : Char) : Bool :=
  c == ' ' || c == '\t' || c == '\n' || c == '\r'

/-- Model of the JS builtin `String.prototype.trim`: drop leading and
trailing whitespace. -/
def jsTrim (s : String) : String :=
  String.mk
    (((s.data.dropWhile isJsWhitespace).reverse.dropWhile
        isJsWhitespace).reverse)

/-- JS test `!site.scheduleCron || !site.scheduleCron.trim()` (scheduler.js
line 28, negated): a site has a custom schedule iff `scheduleCron` is a
string that is non-empty after trimming (`null`, `""` and whitespace-only
strings all count as no schedule). -/
def hasCustomSchedule (s : Site) : Bool :=
  match s.scheduleCron with
  | none => false
  | some c => !(jsTrim c == "")

/-- The handle stored in the `jobs` map: the cron expression, timezone and
the site id captured by the callback closure (scheduler.js lines 34-51). -/
structure SiteJob where
  siteId : String
  cronExp : String
  timezone : String
deriving DecidableEq

/-- The handle stored in `globalScheduleJob`: the closure captures the
config id (line 221) and the whole `config` argument (used at line 316
for the pacing delay), beside the cron expression and timezone. -/
structure GlobalJob where
  configId : String
  capturedConfig : ScheduleConfig
  cronExp : String
  timezone : String
deriving DecidableEq

/-- The mutable module state of scheduler.js: the `jobs` map (site id →
job), the `categoryJobs` map and the `globalScheduleJob` variable. -/
structure SchedState where
  jobs : List (String × SiteJob)
  categoryJobs : List (String × SiteJob)
  globalScheduleJob : Option GlobalJob
deriving DecidableEq

/-- Error raised by `cron.schedule` on a malformed expression; an async
function whose body raises it returns a rejected promise. -/
inductive SchedErr where
  | invalidCron (exp : String)
deriving DecidableEq

/-- JS `Map.set`: any entry under the key is replaced. -/
def jset (k : String) (v : SiteJob) (m : List (String × SiteJob)) :
    List (String × SiteJob) :=
  m.filter (fun kv => !(kv.1 == k)) ++ [(k, v)]

/-- JS `Map.delete` (a delete of an absent key is a no-op, so the
`jobs.has(key)` guard of scheduler.js line 15 needs no separate case). -/
def jdelete (k : String) (m : List (String × SiteJob)) :
    List (String × SiteJob) :=
  m.filter (fun kv => !(kv.1 == k))

/-- The store state and external validator visible to the install-time
operations: `storeConfig` is `prisma.scheduleConfig.findFirst()`,
`storeSites` is `prisma.site.findMany()`, `cronValid` is the node-cron
expression validator (`cron.schedule` throws iff it is false). -/
structure InstallEnv where
  storeConfig : Option ScheduleConfig
  storeSites : List Site
  cronValid : String → Bool

/-- JS test `globalConfig?.enabled && globalConfig.overrideIndividual`
(scheduler.js line 22): the global tier suppresses individual jobs iff a
config row exists and is enabled with `overrideIndividual`. -/
def globalOverrideActive : Option ScheduleConfig → Bool
  | some g => g.enabled && g.overrideIndividual
  | none => false

/-- scheduler.js `scheduleSite(site, fastify)` (lines 11-58):
stop and drop any existing job for the site id; skip when the global
config is enabled with `overrideIndividual`; skip when the site has no
non-empty schedule expression; otherwise install a job for
`site.scheduleCron` with the site timezone (default UTC).  The second
component is the rejection of the async function: `cron.schedule` throws
on an invalid expression, after the old job was already removed. -/
def scheduleSite (env : InstallEnv) (site : Site) (st : SchedState) :
    SchedState × Option SchedErr :=
  let st1 := { st with jobs := jdelete site.id st.jobs }
  if globalOverrideActive env.storeConfig then (st1, none)
  else if !(hasCustomSchedule site) then (st1, none)
  else
    let cronExp := site.scheduleCron.getD ""
    if env.cronValid cronExp then
      ({ st1 with
          jobs := jset site.id
            ⟨site.id, cronExp, site.timezone.getD "UTC"⟩ st1.jobs }, none)
    else (st1, some (SchedErr.invalidCron cronExp))

/-- scheduler.js `stopAllIndividualJobs` (lines 70-78): stops and removes
every individually registered job, returning the count removed. -/
def stopAllIndividualJobs (st : SchedState) : SchedState × Nat :=
  ({ st with jobs := [] }, st.jobs.length)

/-- scheduler.js `onSiteUpdated(site, fastify)` (lines 80-82): calls the
async `scheduleSite` WITHOUT awaiting it and returns synchronously, so a
rejected promise (malformed cron) is discarded; the caller never
observes an error, hence the second component is always `none`. -/
def onSiteUpdated (env : InstallEnv) (site : Site) (st : SchedState) :
    SchedState × Option SchedErr :=
  ((scheduleSite env site st).1, none)

/-- The awaited `for … await scheduleSite` loops of `scheduleAll`
(lines 60-64) and `scheduleGlobalTask` (lines 199-202, 213-216): each
rejection propagates, aborting the remaining iterations. -/
def scheduleSitesLoop (env : InstallEnv) :
    List Site → SchedState → SchedState × Option SchedErr
  | [], st => (st, none)
  | s :: rest, st =>
    match scheduleSite env s st with
    | (st1, none) => scheduleSitesLoop env rest st1
    | (st1, some e) => (st1, some e)

/-- The daily cron expression built at scheduler.js line 220. -/
def mkCron (minute hour : Nat) : String :=
  toString minute ++ " " ++ toString hour ++ " * * *"

/-- scheduler.js `scheduleGlobalTask(config, fastify)` (lines 189-376),
install-time part: stop the existing global job; when the config is
absent or disabled, upsert every site individually and return; when
`overrideIndividual` is set, stop all individual jobs, otherwise upsert
every site; then install the global job at the daily cron built from
`hour` and `minute`.  Rejections of the awaited upserts, or of
`cron.schedule` for the global expression, propagate to the caller. -/
def scheduleGlobalTask (env : InstallEnv) (config : Option ScheduleConfig)
    (st : SchedState) : SchedState × Option SchedErr :=
  let st0 := { st with globalScheduleJob := none }
  match config with
  | none => scheduleSitesLoop env env.storeSites st0
  | some cfg =>
    if !cfg.enabled then scheduleSitesLoop env env.storeSites st0
    else
      let step :=
        if cfg.overrideIndividual then ((stopAllIndividualJobs st0).1, none)
        else scheduleSitesLoop env env.storeSites st0
      match step with
      | (st1, some e) => (st1, some e)
      | (st1, none) =>
        let cronExp := mkCron cfg.minute cfg.hour
        if env.cronValid cronExp then
          let gj : GlobalJob := ⟨cfg.id, cfg, cronExp, cfg.timezone⟩
          ({ st1 with globalScheduleJob := some gj }, none)
        else (st1, some (SchedErr.invalidCron cronExp))

/-- The structured outcome of `checkSite` (run.js, external collaborator)
as the global callback reads it: `hasChanges`, `diff`, `checkInResult`
(an object or null, modelled as an `Option`), `siteName`,
`checkInChanged`. -/
structure CheckResult where
  siteName : String
  hasChanges : Bool
  diff : Option String
  checkInResult : Option String
  checkInChanged : Bool
deriving DecidableEq

/-- An element pushed onto `sitesWithChanges` (scheduler.js lines
276-280): the diff is kept only when `hasChanges` is set. -/
structure NotifyEntry where
  siteName : String
  diff : Option String
  checkInResult : Option String
deriving DecidableEq

/-- An element pushed onto `failedSites` (scheduler.js lines 308-311). -/
structure FailEntry where
  siteName : String
  error : String
deriving DecidableEq

/-- Observable behaviour of one per-item batch loop: the site ids passed
to `checkSite` in invocation order, the seconds slept between items, and
the two collected lists. -/
structure BatchAcc where
  checked : List String
  delays : List Nat
  changed : List NotifyEntry
  failed : List FailEntry
deriving DecidableEq

/-- The per-item loop of the global callback (scheduler.js lines
264-318): sites are checked strictly in input order, one at a time; a
throwing check is caught and recorded in `failedSites` without stopping
the loop; a successful check is recorded in `sitesWithChanges` iff
`result.hasChanges || result.checkInResult` (line 275); after every item
except the last the loop sleeps for `delay` seconds (lines 315-317). -/
def globalBatch (check : Site → Except String CheckResult) (delay : Nat) :
    List Site → BatchAcc
  | [] => ⟨[], [], [], []⟩
  | site :: rest =>
    let item : Option NotifyEntry × Option FailEntry :=
      match check site with
      | Except.ok r =>
        (if r.hasChanges || r.checkInResult.isSome then
            some ⟨r.siteName, if r.hasChanges then r.diff else none,
                  r.checkInResult⟩
          else none, none)
      | Except.error e => (none, some ⟨site.name, e⟩)
    let acc := globalBatch check delay rest
    ⟨site.id :: acc.checked,
      (match rest with | [] => [] | _ :: _ => delay :: acc.delays),
      item.1.toList ++ acc.changed,
      item.2.toList ++ acc.failed⟩

/-- The store and collaborators as seen by a fired callback:
`configsOk` / `sitesOk` model whether the prisma reads succeed (the
whole callback body sits in a try/catch), `configs` and `sites` are the
table contents at fire time, `check` is `checkSite` and `notifyOk`
models whether `sendAggregatedNotification` succeeds. -/
structure FireEnv where
  configsOk : Bool
  configs : List ScheduleConfig
  sitesOk : Bool
  sites : List Site
  check : Site → Except String CheckResult
  notifyOk : Bool

/-- Everything observable about one firing of the global job: the sites
checked (in order), the pacing delays used, the two aggregate lists, how
often the aggregated notifier ran, whether that run failed (caught at
lines 347-350), whether `lastRun` was persisted, and whether the outer
catch (line 364) swallowed an abort. -/
structure FiringLog where
  checked : List String
  delays : List Nat
  sitesWithChanges : List NotifyEntry
  failedSites : List FailEntry
  notifyCount : Nat
  notifyFailed : Bool
  lastRunSet : Bool
  aborted : Bool
deriving DecidableEq

/-- Log of a firing aborted by a store read that threw: the outer catch
logs the error; nothing was checked, notified or persisted. -/
def abortedLog : FiringLog := ⟨[], [], [], [], 0, false, false, false⟩

/-- Log of a firing skipped at scheduler.js lines 231-234 (config row
missing or disabled): identical to `abortedLog` except that no error
reached the outer catch. -/
def skippedLog : FiringLog := ⟨[], [], [], [], 0, false, false, false⟩

/-- scheduler.js lines 240-242: the candidate set of the global batch —
all sites under `overrideIndividual`, otherwise exactly the sites with
no non-empty own schedule expression. -/
def globalCandidates (overrideIndividual : Bool) (allSites : List Site) :
    List Site :=
  if overrideIndividual then allSites
  else allSites.filter (fun s => !(hasCustomSchedule s))

/-- The fired global callback (scheduler.js lines 225-366): re-read the
config by the captured id and skip when missing or disabled; read all
sites and filter to the candidate set; if empty, persist `lastRun` and
return; otherwise run the per-item loop (the pacing delay is
`config.interval` of the CLOSURE-CAPTURED config, line 316, even though
`latestConfig` was just re-read); send the aggregated notification
exactly once iff either collected list is non-empty (a notifier throw is
caught and only logged); finally persist `lastRun`.  A store read that
throws aborts the firing into the outer catch. -/
def globalFire (job : GlobalJob) (env : FireEnv) : FiringLog :=
  if !env.configsOk then { abortedLog with aborted := true }
  else
    match env.configs.find? (fun c => c.id == job.configId) with
    | none => skippedLog
    | some latest =>
      if !latest.enabled then skippedLog
      else if !env.sitesOk then { abortedLog with aborted := true }
      else
        let sites := globalCandidates latest.overrideIndividual env.sites
        if sites.length == 0 then
          { skippedLog with lastRunSet := true }
        else
          let acc := globalBatch env.check job.capturedConfig.interval sites
          let doNotify :=
            decide (0 < acc.changed.length) || decide (0 < acc.failed.length)
          ⟨acc.checked, acc.delays, acc.changed, acc.failed,
            if doNotify then 1 else 0,
            doNotify && !env.notifyOk,
            true, false⟩

/-- A row of the `Category` table with its included member sites, as the
category callback reads it (scheduler.js lines 104-107). -/
structure Category where
  id : String
  name : String
  scheduleCron : Option String
  timezone : Option String
  sites : List Site
deriving DecidableEq

/-- Observable behaviour of one firing of a category job. -/
structure CatFiringLog where
  checked : List String
  delays : List Nat
  failed : List FailEntry
deriving DecidableEq

/-- The per-item loop of the category callback (scheduler.js lines
132-149): check each site in order, catching per-site errors, and sleep
5 seconds after every item except the last. -/
def categoryBatch (check : Site → Except String CheckResult) :
    List Site → List String × List Nat × List FailEntry
  | [] => ([], [], [])
  | site :: rest =>
    let fail : List FailEntry :=
      match check site with
      | Except.ok _ => []
      | Except.error e => [⟨site.name, e⟩]
    let acc := categoryBatch check rest
    (site.id :: acc.1,
      (match rest with | [] => [] | _ :: _ => 5 :: acc.2.1),
      fail ++ acc.2.2)

/-- scheduler.js lines 116-118: the members a category firing checks are
the non-pinned sites of the category; `excludeFromBatch` is not
consulted (the comment at line 115 says it only affects manual runs). -/
def categoryBatchMembers (cat : Category) : List Site :=
  cat.sites.filter (fun s => !s.pinned)

/-- The fired category callback (scheduler.js lines 101-161): re-read the
category with its sites by the captured id, skip when missing; filter the
members to the non-pinned ones; if none remain, log and return;
otherwise run the paced per-item loop. -/
def categoryFire (categoryId : String) (categories : List Category)
    (check : Site → Except String CheckResult) : CatFiringLog :=
  match categories.find? (fun c => c.id == categoryId) with
  | none => ⟨[], [], []⟩
  | some latest =>
    let sitesToCheck := categoryBatchMembers latest
    if sitesToCheck.length == 0 then ⟨[], [], []⟩
    else
      let acc := categoryBatch check sitesToCheck
      ⟨acc.1, acc.2.1, acc.2.2⟩

/-- The element-level form of the `sitesWithChanges` collection
(scheduler.js lines 275-280): a successful check contributes an entry
iff it has a model diff or a check-in result. -/
def changeEntry (check : Site → Except String CheckResult) (site : Site) :
    Option NotifyEntry :=
  match check site with
  | Except.ok r =>
    if r.hasChanges || r.checkInResult.isSome then
      some ⟨r.siteName, if r.hasChanges then r.diff else none,
            r.checkInResult⟩
    else none
  | Except.error _ => none

/-- The element-level form of the `failedSites` collection (scheduler.js
lines 308-311): a throwing check contributes its site name and
message. -/
def failEntry (check : Site → Except String CheckResult) (site : Site) :
    Option FailEntry :=
  match check site with
  | Except.ok _ => none
  | Except.error e => some ⟨site.name, e⟩

/-- Number of jobs a registry map holds under a key. -/
def countKey (m : List (String × SiteJob)) (k : String) : Nat :=
  m.countP (fun kv => kv.1 == k)

/-- The exact condition under which `scheduleSite` rejects: the install
is attempted (no active override, site has a custom schedule) and the
expression is one `cron.schedule` refuses. -/
def siteInstallErr (env : InstallEnv) (s : Site) : Bool :=
  !(globalOverrideActive env.storeConfig) && hasCustomSchedule s
    && !(env.cronValid (s.scheduleCron.getD ""))

/-- scheduler.js line 196 test `!config || !config.enabled`. -/
def globalDisabled : Option ScheduleConfig → Bool
  | none => true
  | some c => !c.enabled

/-- A check behaviour that returns no diff and no check-in result, used
by the concrete scenarios below. -/
def quietCheck : Site → Except String CheckResult :=
  fun _ => Except.ok ⟨"quiet", false, none, none, false⟩

/-- Concrete scenario for the stale-interval bug: two sites with no
custom schedule. -/
def c1SiteA : Site := ⟨"sa", "Site A", none, none, false, false⟩

def c1SiteB : Site := ⟨"sb", "Site B", none, none, false, false⟩

/-- The global config as it stood when the job was installed:
interval 30 seconds. -/
def c1Captured : ScheduleConfig := ⟨"cfg1", true, false, 9, 0, "UTC", 30⟩

/-- The same row as it stands in the store at fire time: an operator
has meanwhile raised the interval to 60 seconds. -/
def c1Fresh : ScheduleConfig := ⟨"cfg1", true, false, 9, 0, "UTC", 60⟩

def c1Job : GlobalJob := ⟨"cfg1", c1Captured, "0 9 * * *", "UTC"⟩

def c1Env : FireEnv := ⟨true, [c1Fresh], true, [c1SiteA, c1SiteB],
  quietCheck, true⟩

/-- Concrete scenario for pinned sites: a pinned site with no custom
schedule. -/
def c2Pinned : Site := ⟨"sp", "Pinned", none, none, true, false⟩

def c2Cfg : ScheduleConfig := ⟨"cfg2", true, false, 9, 0, "UTC", 30⟩

def c2Job : GlobalJob := ⟨"cfg2", c2Cfg, "0 9 * * *", "UTC"⟩

def c2Env : FireEnv := ⟨true, [c2Cfg], true, [c2Pinned], quietCheck, true⟩

def c2Cat : Category := ⟨"c", "Cat", some "0 9 * * *", none, [c2Pinned]⟩

/-- Concrete scenario for a malformed site schedule expression. -/
def c9BadSite : Site := ⟨"sx", "Bad", some "not a cron", none, false, false⟩

def c9Env : InstallEnv := ⟨none, [c9BadSite], fun _ => false⟩

def c9St : SchedState := ⟨[], [], none⟩

theorem countP_jdelete (k k0 : String) (m : List (String × SiteJob)) :
    countKey (jdelete k0 m) k = if k = k0 then 0 else countKey m k := by
  induction m with
  | nil => simp [countKey, jdelete]
  | cons kv m ih =>
    simp only [countKey, jdelete, List.filter_cons] at ih ⊢
    by_cases h0 : kv.1 = k0 <;> by_cases h1 : kv.1 = k <;>
      by_cases h : k = k0 <;>
      simp_all [List.countP_cons]

theorem countKey_jset (k k0 : String) (v : SiteJob)
    (m : List (String × SiteJob)) :
    countKey (jset k0 v m) k = if k = k0 then 1 else countKey m k := by
  have hsplit : countKey (jset k0 v m) k
      = countKey (jdelete k0 m) k + countKey [(k0, v)] k := by
    simp [countKey, jset, jdelete, List.countP_append]
  rw [hsplit, countP_jdelete]
  by_cases h : k = k0
  · simp [countKey, List.countP_cons, h]
  · simp [countKey, List.countP_cons, beq_iff_eq, h, Ne.symm h]

theorem scheduleSite_snd (env : InstallEnv) (site : Site) (st : SchedState) :
    (scheduleSite env site st).2 =
      (if siteInstallErr env site then
          some (SchedErr.invalidCron (site.scheduleCron.getD ""))
        else none) := by
  unfold scheduleSite siteInstallErr
  by_cases hov : globalOverrideActive env.storeConfig
  · simp [hov]
  · by_cases hcs : hasCustomSchedule site
    · by_cases hv : env.cronValid (site.scheduleCron.getD "")
      · simp [hov, hcs, hv]
      · simp [hov, hcs, hv]
    · simp [hov, hcs]

theorem scheduleSite_countKey_self (env : InstallEnv) (site : Site)
    (st : SchedState) :
    countKey (scheduleSite env site st).1.jobs site.id =
      (if (!(globalOverrideActive env.storeConfig) && hasCustomSchedule site
            && env.cronValid (site.scheduleCron.getD "")) then 1 else 0) := by
  unfold scheduleSite
  by_cases hov : globalOverrideActive env.storeConfig
  · simp [hov, countP_jdelete]
  · by_cases hcs : hasCustomSchedule site
    · by_cases hv : env.cronValid (site.scheduleCron.getD "")
      · simp [hov, hcs, hv, countKey_jset]
      · simp [hov, hcs, hv, countP_jdelete]
    · simp [hov, hcs, countP_jdelete]

theorem scheduleSite_countKey_other (env : InstallEnv) (site : Site)
    (st : SchedState) (k : String) (hk : k ≠ site.id) :
    countKey (scheduleSite env site st).1.jobs k = countKey st.jobs k := by
  unfold scheduleSite
  by_cases hov : globalOverrideActive env.storeConfig
  · simp [hov, countP_jdelete, hk]
  · by_cases hcs : hasCustomSchedule site
    · by_cases hv : env.cronValid (site.scheduleCron.getD "")
      · simp [hov, hcs, hv, countKey_jset, countP_jdelete, hk]
      · simp [hov, hcs, hv, countP_jdelete, hk]
    · simp [hov, hcs, countP_jdelete, hk]

theorem scheduleSite_globalJob (env : InstallEnv) (site : Site)
    (st : SchedState) :
    (scheduleSite env site st).1.globalScheduleJob = st.globalScheduleJob := by
  unfold scheduleSite
  by_cases hov : globalOverrideActive env.storeConfig
  · simp [hov]
  · by_cases hcs : hasCustomSchedule site
    · by_cases hv : env.cronValid (site.scheduleCron.getD "")
      · simp [hov, hcs, hv]
      · simp [hov, hcs, hv]
    · simp [hov, hcs]

theorem scheduleSitesLoop_globalJob (env : InstallEnv) (sites : List Site)
    (st : SchedState) :
    (scheduleSitesLoop env sites st).1.globalScheduleJob =
      st.globalScheduleJob := by
  induction sites generalizing st with
  | nil => rfl
  | cons s rest ih =>
    have hgj := scheduleSite_globalJob env s st
    cases hs : scheduleSite env s st with
    | mk st1 e =>
      rw [hs] at hgj
      cases e with
      | none => simp only [scheduleSitesLoop, hs]; rw [ih, hgj]
      | some err => simp only [scheduleSitesLoop, hs]; exact hgj

theorem scheduleSitesLoop_none_iff (env : InstallEnv) (sites : List Site)
    (st : SchedState) :
    (scheduleSitesLoop env sites st).2 = none ↔
      ∀ s ∈ sites, siteInstallErr env s = false := by
  induction sites generalizing st with
  | nil => simp [scheduleSitesLoop]
  | cons s rest ih =>
    have hsnd := scheduleSite_snd env s st
    cases hs : scheduleSite env s st with
    | mk st1 e =>
      rw [hs] at hsnd
      cases e with
      | none =>
        have herr : siteInstallErr env s = false := by
          by_cases hb : siteInstallErr env s
          · rw [hb] at hsnd; simp at hsnd
          · exact Bool.not_eq_true _ ▸ (by simpa using hb)
        simp only [scheduleSitesLoop, hs]
        rw [ih]
        constructor
        · intro h t ht
          rcases List.mem_cons.mp ht with rfl | hmem
          · exact herr
          · exact h t hmem
        · intro h t ht
          exact h t (List.mem_cons_of_mem s ht)
      | some err =>
        have herr : siteInstallErr env s = true := by
          by_cases hb : siteInstallErr env s
          · exact hb
          · rw [Bool.not_eq_true] at hb; rw [hb] at hsnd; simp at hsnd
        simp only [scheduleSitesLoop, hs]
        constructor
        · intro h; simp at h
        · intro h
          have := h s (List.mem_cons_self s rest)
          rw [herr] at this
          simp at this

theorem scheduleSitesLoop_countKey_not_mem (env : InstallEnv)
    (sites : List Site) (st : SchedState) (k : String)
    (hk : ∀ s ∈ sites, s.id ≠ k) :
    countKey (scheduleSitesLoop env sites st).1.jobs k =
      countKey st.jobs k := by
  induction sites generalizing st with
  | nil => rfl
  | cons s rest ih =>
    have hko : k ≠ s.id := fun h => hk s (List.mem_cons_self s rest) h.symm
    have hother := scheduleSite_countKey_other env s st k hko
    cases hs : scheduleSite env s st with
    | mk st1 e =>
      rw [hs] at hother
      cases e with
      | none =>
        simp only [scheduleSitesLoop, hs]
        rw [ih st1 (fun t ht => hk t (List.mem_cons_of_mem s ht)), hother]
      | some err =>
        simp only [scheduleSitesLoop, hs]
        exact hother

theorem scheduleSitesLoop_countKey_mem (env : InstallEnv) (sites : List Site)
    (st : SchedState) (s : Site)
    (hnd : (sites.map (fun t => t.id)).Nodup)
    (hvalid : ∀ t ∈ sites, siteInstallErr env t = false)
    (hs : s ∈ sites) :
    countKey (scheduleSitesLoop env sites st).1.jobs s.id =
      (if !(globalOverrideActive env.storeConfig) && hasCustomSchedule s
        then 1 else 0) := by
  induction sites generalizing st with
  | nil => cases hs
  | cons t rest ih =>
    have ht : siteInstallErr env t = false :=
      hvalid t (List.mem_cons_self t rest)
    have he : (scheduleSite env t st).2 = none := by
      rw [scheduleSite_snd, ht]
      simp
    have hself := scheduleSite_countKey_self env t st
    cases hst : scheduleSite env t st with
    | mk st1 e =>
      rw [hst] at he hself
      simp only at he
      subst he
      simp only [scheduleSitesLoop, hst]
      rcases List.mem_cons.mp hs with rfl | hmem
      · have hnd1 : (∀ x ∈ rest, ¬x.id = s.id) ∧
            (rest.map (fun r => r.id)).Nodup := by
          simpa using hnd
        have hrest : ∀ r ∈ rest, r.id ≠ s.id := fun r hr => hnd1.1 r hr
        rw [scheduleSitesLoop_countKey_not_mem env rest st1 s.id hrest, hself]
        unfold siteInstallErr at ht
        by_cases hcond :
            (!(globalOverrideActive env.storeConfig) && hasCustomSchedule s)
            = true
        · have hv : env.cronValid (s.scheduleCron.getD "") = true := by
            by_contra hvv
            rw [Bool.not_eq_true] at hvv
            rw [hcond, hvv] at ht
            simp at ht
          simp [hcond, hv]
        · have hf : (!(globalOverrideActive env.storeConfig)
              && hasCustomSchedule s) = false := by
            simpa using hcond
          simp [hf]
      · have hnd1 : (∀ x ∈ rest, ¬x.id = t.id) ∧
            (rest.map (fun r => r.id)).Nodup := by
          simpa using hnd
        exact ih st1 hnd1.2
          (fun r hr => hvalid r (List.mem_cons_of_mem t hr)) hmem

theorem globalBatch_checked (check : Site → Except String CheckResult)
    (delay : Nat) (items : List Site) :
    (globalBatch check delay items).checked = items.map (fun s => s.id) := by
  induction items with
  | nil => rfl
  | cons s rest ih => simp [globalBatch, ih]

theorem globalBatch_delays (check : Site → Except String CheckResult)
    (delay : Nat) (items : List Site) :
    (globalBatch check delay items).delays =
      List.replicate (items.length - 1) delay := by
  induction items with
  | nil => rfl
  | cons s rest ih =>
    cases rest with
    | nil => rfl
    | cons t ts =>
      simp only [globalBatch] at ih ⊢
      rw [ih]
      simp [List.replicate_succ]

theorem globalBatch_failed (check : Site → Except String CheckResult)
    (delay : Nat) (items : List Site) :
    (globalBatch check delay items).failed =
      items.filterMap (failEntry check) := by
  induction items with
  | nil => rfl
  | cons s rest ih =>
    simp only [globalBatch, List.filterMap_cons]
    cases hc : check s with
    | ok r => simp [failEntry, hc, ih]
    | error e => simp [failEntry, hc, ih]

theorem globalBatch_changed (check : Site → Except String CheckResult)
    (delay : Nat) (items : List Site) :
    (globalBatch check delay items).changed =
      items.filterMap (changeEntry check) := by
  induction items with
  | nil => rfl
  | cons s rest ih =>
    simp only [globalBatch, List.filterMap_cons]
    cases hc : check s with
    | ok r =>
      by_cases hn : (r.hasChanges || r.checkInResult.isSome) = true
      · simp [changeEntry, hc, hn, ih]
      · have hf : (r.hasChanges || r.checkInResult.isSome) = false := by
          simpa using hn
        simp [changeEntry, hc, hf, ih]
    | error e => simp [changeEntry, hc, ih]

theorem categoryBatch_checked (check : Site → Except String CheckResult)
    (items : List Site) :
    (categoryBatch check items).1 = items.map (fun s => s.id) := by
  induction items with
  | nil => rfl
  | cons s rest ih => simp [categoryBatch, ih]

theorem categoryFire_checked (cid : String) (cats : List Category)
    (check : Site → Except String CheckResult) (cat : Category)
    (hfind : cats.find? (fun c => c.id == cid) = some cat) :
    (categoryFire cid cats check).checked =
      (categoryBatchMembers cat).map (fun s => s.id) := by
  unfold categoryFire
  rw [hfind]
  by_cases hlen : ((categoryBatchMembers cat).length == 0) = true
  · have hz : (categoryBatchMembers cat).length = 0 := by simpa using hlen
    have : categoryBatchMembers cat = [] := List.length_eq_zero.mp hz
    simp [hlen, this]
  · have hlenf : ((categoryBatchMembers cat).length == 0) = false := by
      simpa using hlen
    simp [hlenf, categoryBatch_checked]

theorem globalFire_run (job : GlobalJob) (env : FireEnv)
    (latest : ScheduleConfig)
    (h1 : env.configsOk = true)
    (h2 : env.configs.find? (fun c => c.id == job.configId) = some latest)
    (h3 : latest.enabled = true)
    (h4 : env.sitesOk = true) :
    globalFire job env =
      (if (globalCandidates latest.overrideIndividual env.sites).length == 0
        then { skippedLog with lastRunSet := true }
        else
          let acc := globalBatch env.check job.capturedConfig.interval
            (globalCandidates latest.overrideIndividual env.sites)
          let doNotify :=
            decide (0 < acc.changed.length) || decide (0 < acc.failed.length)
          ⟨acc.checked, acc.delays, acc.changed, acc.failed,
            if doNotify then 1 else 0, doNotify && !env.notifyOk,
            true, false⟩) := by
  unfold globalFire
  rw [h1, h2]
  simp [h3, h4]

theorem filter_key_jdelete (k : String) (m : List (String × SiteJob)) :
    (jdelete k m).filter (fun kv => kv.1 == k) = [] := by
  induction m with
  | nil => rfl
  | cons kv m ih =>
    unfold jdelete at ih ⊢
    by_cases h : (kv.1 == k) = true
    · simp [List.filter_cons, h, ih]
    · have hf : (kv.1 == k) = false := by simpa using h
      simp [List.filter_cons, hf, ih]

theorem filter_key_jset (k : String) (v : SiteJob)
    (m : List (String × SiteJob)) :
    (jset k v m).filter (fun kv => kv.1 == k) = [(k, v)] := by
  unfold jset
  rw [List.filter_append]
  rw [show (m.filter fun kv => !(kv.1 == k)) = jdelete k m from rfl]
  rw [filter_key_jdelete]
  simp [List.filter_cons]

/-- C4: after `scheduleSite` (the per-site upsert) completes normally,
the jobs registry holds exactly one entry for the site id when the
global override is inactive and the site has a non-empty schedule
expression, and no entry otherwise — never two — and whatever entry
existed for that id before the call has been removed (the registry
content under the key is exactly the freshly installed job or
nothing). -/
theorem c4_upsert_job_count (env : InstallEnv) (site : Site)
    (st : SchedState)
    (h : (scheduleSite env site st).2 = none) :
    ((scheduleSite env site st).1.jobs.filter (fun kv => kv.1 == site.id))
      = (if globalOverrideActive env.storeConfig = false
            ∧ hasCustomSchedule site = true
          then [(site.id, ⟨site.id, site.scheduleCron.getD "",
                  site.timezone.getD "UTC"⟩)]
          else [])
    ∧ countKey (scheduleSite env site st).1.jobs site.id ≤ 1
    ∧ (countKey (scheduleSite env site st).1.jobs site.id = 1 ↔
        (globalOverrideActive env.storeConfig = false
          ∧ hasCustomSchedule site = true)) := by
  have hsnd := scheduleSite_snd env site st
  rw [h] at hsnd
  have hmaster :
      ((scheduleSite env site st).1.jobs.filter (fun kv => kv.1 == site.id))
        = (if globalOverrideActive env.storeConfig = false
              ∧ hasCustomSchedule site = true
            then [(site.id, ⟨site.id, site.scheduleCron.getD "",
                    site.timezone.getD "UTC"⟩)]
            else []) := by
    unfold scheduleSite
    by_cases hov : globalOverrideActive env.storeConfig = true
    · simp [hov, filter_key_jdelete]
    · have hovf : globalOverrideActive env.storeConfig = false := by
        simpa using hov
      by_cases hcs : hasCustomSchedule site = true
      · by_cases hv : env.cronValid (site.scheduleCron.getD "") = true
        · simp [hovf, hcs, hv, filter_key_jset]
        · exfalso
          unfold siteInstallErr at hsnd
          have hvf : env.cronValid (site.scheduleCron.getD "") = false := by
            simpa using hv
          rw [hovf, hcs, hvf] at hsnd
          simp at hsnd
      · have hcsf : hasCustomSchedule site = false := by simpa using hcs
        simp [hovf, hcsf, filter_key_jdelete]
  have hcount : countKey (scheduleSite env site st).1.jobs site.id
      = ((scheduleSite env site st).1.jobs.filter
          (fun kv => kv.1 == site.id)).length := by
    simp [countKey, List.countP_eq_length_filter]
  refine ⟨hmaster, ?_, ?_⟩
  · rw [hcount, hmaster]
    split <;> simp
  · rw [hcount, hmaster]
    by_cases hcond : globalOverrideActive env.storeConfig = false
        ∧ hasCustomSchedule site = true
    · simp [hcond]
    · simp [hcond]

/-- C4 witness: a site with a valid custom schedule and no override
installs exactly one job. -/
theorem c4_upsert_job_count_witness :
    ((scheduleSite ⟨none, [], fun e => e == "0 9 * * *"⟩
        ⟨"s1", "S1", some "0 9 * * *", none, false, false⟩
        ⟨[], [], none⟩).2 = none)
    ∧ countKey (scheduleSite ⟨none, [], fun e => e == "0 9 * * *"⟩
        ⟨"s1", "S1", some "0 9 * * *", none, false, false⟩
        ⟨[], [], none⟩).1.jobs "s1" = 1 := by
  refine ⟨by decide, ?_⟩
  have h := c4_upsert_job_count ⟨none, [], fun e => e == "0 9 * * *"⟩
    ⟨"s1", "S1", some "0 9 * * *", none, false, false⟩
    ⟨[], [], none⟩ (by decide)
  exact h.2.2.mpr (by decide)

/-- C6: the per-item batch loop of the global firing invokes the check
on each item exactly once, strictly in input order (it is a sequential
fold, so no two checks overlap); it sleeps once after every item but the
last (`n - 1` pacing delays); an item whose check throws lands in the
failure list while every later item is still checked; the empty list
yields empty outcomes and no delay. -/
theorem c6_batch_runner_sequential (check : Site → Except String CheckResult)
    (delay : Nat) (items : List Site) :
    (globalBatch check delay items).checked = items.map (fun s => s.id)
    ∧ (globalBatch check delay items).delays
        = List.replicate (items.length - 1) delay
    ∧ (globalBatch check delay items).failed
        = items.filterMap (failEntry check)
    ∧ (globalBatch check delay items).changed
        = items.filterMap (changeEntry check)
    ∧ globalBatch check delay [] = ⟨[], [], [], []⟩ :=
  ⟨globalBatch_checked check delay items,
    globalBatch_delays check delay items,
    globalBatch_failed check delay items,
    globalBatch_changed check delay items, rfl⟩

/-- C5: in a completed global firing the checked sites are exactly the
candidate set computed from the freshly re-read config: all sites when
`overrideIndividual` is true, otherwise exactly the sites without a
non-empty own schedule expression; the candidate filter never consults
`excludeFromBatch` (rewriting that flag arbitrarily commutes with the
selection). -/
theorem c5_global_candidate_set (job : GlobalJob) (env : FireEnv)
    (latest : ScheduleConfig)
    (h1 : env.configsOk = true)
    (h2 : env.configs.find? (fun c => c.id == job.configId) = some latest)
    (h3 : latest.enabled = true)
    (h4 : env.sitesOk = true) :
    (globalFire job env).checked
      = (globalCandidates latest.overrideIndividual env.sites).map
          (fun s => s.id)
    ∧ globalCandidates true env.sites = env.sites
    ∧ globalCandidates false env.sites
        = env.sites.filter (fun s => !(hasCustomSchedule s))
    ∧ ∀ (f : Site → Bool),
        globalCandidates latest.overrideIndividual
            (env.sites.map (fun s => { s with excludeFromBatch := f s }))
          = (globalCandidates latest.overrideIndividual env.sites).map
              (fun s => { s with excludeFromBatch := f s }) := by
  refine ⟨?_, rfl, rfl, ?_⟩
  · rw [globalFire_run job env latest h1 h2 h3 h4]
    by_cases hlen :
        ((globalCandidates latest.overrideIndividual env.sites).length == 0)
        = true
    · have hz : (globalCandidates latest.overrideIndividual
          env.sites).length = 0 := by simpa using hlen
      have hnil : globalCandidates latest.overrideIndividual env.sites = [] :=
        List.length_eq_zero.mp hz
      simp [hlen, hnil, skippedLog]
    · have hlenf :
          ((globalCandidates latest.overrideIndividual env.sites).length == 0)
          = false := by simpa using hlen
      simp [hlenf, globalBatch_checked]
  · intro f
    unfold globalCandidates
    by_cases ho : latest.overrideIndividual = true
    · simp [ho]
    · have hof : latest.overrideIndividual = false := by simpa using ho
      simp only [hof, if_false, Bool.false_eq_true]
      rw [List.filter_map]
      rfl

/-- C5 witness: with one custom-scheduled site and one bare site and
`overrideIndividual = false`, only the bare site is checked. -/
theorem c5_global_candidate_set_witness :
    (globalFire c1Job
      ⟨true, [c1Fresh], true,
        [⟨"s1", "S1", some "0 9 * * *", none, false, false⟩, c1SiteB],
        quietCheck, true⟩).checked = ["sb"] := by
  have h := c5_global_candidate_set c1Job
    ⟨true, [c1Fresh], true,
      [⟨"s1", "S1", some "0 9 * * *", none, false, false⟩, c1SiteB],
      quietCheck, true⟩
    c1Fresh (by decide) (by decide) (by decide) (by decide)
  rw [h.1]
  decide

/-- C7: a global firing that runs to completion persists `lastRun`
unconditionally (also when the candidate set is empty) and reaches no
outer catch; a firing whose config re-read throws, or whose site-list
read throws, aborts into the outer catch with nothing checked, no
notification and `lastRun` untouched. -/
theorem c7_lastrun_persistence (job : GlobalJob) (env env2 env3 : FireEnv)
    (latest l3 : ScheduleConfig)
    (h1 : env.configsOk = true)
    (h2 : env.configs.find? (fun c => c.id == job.configId) = some latest)
    (h3 : latest.enabled = true)
    (h4 : env.sitesOk = true)
    (g1 : env2.configsOk = false)
    (k1 : env3.configsOk = true)
    (k2 : env3.configs.find? (fun c => c.id == job.configId) = some l3)
    (k3 : l3.enabled = true)
    (k4 : env3.sitesOk = false) :
    ((globalFire job env).lastRunSet = true
      ∧ (globalFire job env).aborted = false)
    ∧ globalFire job env2 = { abortedLog with aborted := true }
    ∧ globalFire job env3 = { abortedLog with aborted := true } := by
  refine ⟨?_, ?_, ?_⟩
  · rw [globalFire_run job env latest h1 h2 h3 h4]
    by_cases hlen :
        ((globalCandidates latest.overrideIndividual env.sites).length == 0)
        = true
    · simp [hlen, skippedLog]
    · have hlenf :
          ((globalCandidates latest.overrideIndividual env.sites).length == 0)
          = false := by simpa using hlen
      simp [hlenf]
  · unfold globalFire
    simp [g1]
  · unfold globalFire
    rw [k1, k2]
    simp [k3, k4]

/-- C7 witness: a run over an empty store still sets `lastRun`; failing
reads leave it unset. -/
theorem c7_lastrun_persistence_witness :
    ((globalFire c1Job ⟨true, [c1Fresh], true, [], quietCheck, true⟩).lastRunSet
        = true)
    ∧ globalFire c1Job ⟨false, [], true, [], quietCheck, true⟩
        = { abortedLog with aborted := true }
    ∧ globalFire c1Job ⟨true, [c1Fresh], false, [], quietCheck, true⟩
        = { abortedLog with aborted := true } := by
  have h := c7_lastrun_persistence c1Job
    ⟨true, [c1Fresh], true, [], quietCheck, true⟩
    ⟨false, [], true, [], quietCheck, true⟩
    ⟨true, [c1Fresh], false, [], quietCheck, true⟩
    c1Fresh c1Fresh
    (by decide) (by decide) (by decide) (by decide) (by decide)
    (by decide) (by decide) (by decide) (by decide)
  exact ⟨h.1.1, h.2.1, h.2.2⟩

theorem notify_if_iff (A : List NotifyEntry) (B : List FailEntry) :
    ((if (decide (0 < A.length) || decide (0 < B.length)) then (1 : Nat)
        else 0) = 1 ↔ (A ≠ [] ∨ B ≠ []))
    ∧ ((if (decide (0 < A.length) || decide (0 < B.length)) then (1 : Nat)
        else 0) = 0 ↔ (A = [] ∧ B = [])) := by
  by_cases hA : A = [] <;> by_cases hB : B = []
  · simp [hA, hB]
  · simp [hA, hB, List.length_pos.mpr hB]
  · simp [hA, hB, List.length_pos.mpr hA]
  · simp [hA, hB, List.length_pos.mpr hA, List.length_pos.mpr hB]

/-- C8: in a completed global firing a checked site contributes to the
aggregated payload exactly when its check succeeded with a model diff or
a check-in result, and the aggregated notifier runs exactly once iff the
changed list or the failed list is non-empty, otherwise not at all. -/
theorem c8_aggregated_notification (job : GlobalJob) (env : FireEnv)
    (latest : ScheduleConfig)
    (h1 : env.configsOk = true)
    (h2 : env.configs.find? (fun c => c.id == job.configId) = some latest)
    (h3 : latest.enabled = true)
    (h4 : env.sitesOk = true) :
    (globalFire job env).sitesWithChanges
      = (globalCandidates latest.overrideIndividual env.sites).filterMap
          (changeEntry env.check)
    ∧ ((globalFire job env).notifyCount = 1 ↔
        ((globalFire job env).sitesWithChanges ≠ []
          ∨ (globalFire job env).failedSites ≠ []))
    ∧ ((globalFire job env).notifyCount = 0 ↔
        ((globalFire job env).sitesWithChanges = []
          ∧ (globalFire job env).failedSites = [])) := by
  rw [globalFire_run job env latest h1 h2 h3 h4]
  by_cases hlen :
      ((globalCandidates latest.overrideIndividual env.sites).length == 0)
      = true
  · have hz : (globalCandidates latest.overrideIndividual
        env.sites).length = 0 := by simpa using hlen
    have hnil : globalCandidates latest.overrideIndividual env.sites = [] :=
      List.length_eq_zero.mp hz
    simp [hlen, hnil, skippedLog]
  · have hlenf :
        ((globalCandidates latest.overrideIndividual env.sites).length == 0)
        = false := by simpa using hlen
    simp only [hlenf, Bool.false_eq_true, if_false]
    refine ⟨globalBatch_changed env.check job.capturedConfig.interval
      (globalCandidates latest.overrideIndividual env.sites) ▸ rfl, ?_, ?_⟩
    · exact (notify_if_iff _ _).1
    · exact (notify_if_iff _ _).2

/-- C8 witness: one candidate with a check-in result and no failure
yields a payload with that site and one notifier invocation. -/
theorem c8_aggregated_notification_witness :
    ((globalFire c1Job
        ⟨true, [c1Fresh], true, [c1SiteA],
          fun _ => Except.ok ⟨"Site A", false, none, some "ok", false⟩,
          true⟩).sitesWithChanges = [⟨"Site A", none, some "ok"⟩])
    ∧ (globalFire c1Job
        ⟨true, [c1Fresh], true, [c1SiteA],
          fun _ => Except.ok ⟨"Site A", false, none, some "ok", false⟩,
          true⟩).notifyCount = 1 := by
  have h := c8_aggregated_notification c1Job
    ⟨true, [c1Fresh], true, [c1SiteA],
      fun _ => Except.ok ⟨"Site A", false, none, some "ok", false⟩, true⟩
    c1Fresh (by decide) (by decide) (by decide) (by decide)
  refine ⟨?_, ?_⟩
  · rw [h.1]
    decide
  · refine h.2.1.mpr (Or.inl ?_)
    rw [h.1]
    decide

/-- C10: the fired global callback looks the config up by the captured
id; when that row is gone the firing is skipped exactly like a disabled
config — nothing checked, no notifier call, `lastRun` untouched — even
if the store holds an enabled config under another id. -/
theorem c10_missing_config_row (job : GlobalJob) (env env2 : FireEnv)
    (c2 : ScheduleConfig)
    (h1 : env.configsOk = true)
    (h2 : env.configs.find? (fun c => c.id == job.configId) = none)
    (g1 : env2.configsOk = true)
    (g2 : env2.configs.find? (fun c => c.id == job.configId) = some c2)
    (g3 : c2.enabled = false) :
    globalFire job env = skippedLog ∧ globalFire job env2 = skippedLog := by
  constructor
  · unfold globalFire
    rw [h1, h2]
    simp
  · unfold globalFire
    rw [g1, g2]
    simp [g3]

/-- C10 witness: the captured id cfg1 is gone while an enabled row under
the new id cfgNew exists; the firing is skipped all the same. -/
theorem c10_missing_config_row_witness :
    globalFire c1Job
        ⟨true, [⟨"cfgNew", true, false, 9, 0, "UTC", 30⟩], true, [c1SiteA],
          quietCheck, true⟩ = skippedLog
    ∧ globalFire c1Job
        ⟨true, [⟨"cfg1", false, false, 9, 0, "UTC", 30⟩], true, [c1SiteA],
          quietCheck, true⟩ = skippedLog := by
  exact c10_missing_config_row c1Job
    ⟨true, [⟨"cfgNew", true, false, 9, 0, "UTC", 30⟩], true, [c1SiteA],
      quietCheck, true⟩
    ⟨true, [⟨"cfg1", false, false, 9, 0, "UTC", 30⟩], true, [c1SiteA],
      quietCheck, true⟩
    ⟨"cfg1", false, false, 9, 0, "UTC", 30⟩
    (by decide) (by decide) (by decide) (by decide) (by decide)

/-- C3: after `scheduleGlobalTask` (reconfigure) with an absent or
disabled config (matching the store), no global job exists and every
site with a non-empty own schedule expression holds exactly one
individual job; with an enabled overriding config the individual
registry is empty regardless of the sites, and the global job is
installed at the daily cron built from hour and minute. -/
theorem c3_reconfigure_tiers (env : InstallEnv) (st : SchedState)
    (cdis : Option ScheduleConfig) (c : ScheduleConfig)
    (henv : env.storeConfig = cdis)
    (hdis : globalDisabled cdis = true)
    (hnd : (env.storeSites.map (fun t => t.id)).Nodup)
    (hvalid : ∀ t ∈ env.storeSites, siteInstallErr env t = false)
    (hen : c.enabled = true)
    (hov : c.overrideIndividual = true)
    (hcron : env.cronValid (mkCron c.minute c.hour) = true) :
    ((scheduleGlobalTask env cdis st).2 = none
      ∧ (scheduleGlobalTask env cdis st).1.globalScheduleJob = none
      ∧ ∀ s ∈ env.storeSites, hasCustomSchedule s = true →
          countKey (scheduleGlobalTask env cdis st).1.jobs s.id = 1)
    ∧ ((scheduleGlobalTask env (some c) st).2 = none
      ∧ (scheduleGlobalTask env (some c) st).1.jobs = []
      ∧ (scheduleGlobalTask env (some c) st).1.globalScheduleJob
          = some ⟨c.id, c, mkCron c.minute c.hour, c.timezone⟩) := by
  have hloop : scheduleGlobalTask env cdis st =
      scheduleSitesLoop env env.storeSites
        { st with globalScheduleJob := none } := by
    cases cdis with
    | none => rfl
    | some cc =>
      have hcc : cc.enabled = false := by
        simpa [globalDisabled] using hdis
      simp [scheduleGlobalTask, hcc]
  have hovf : globalOverrideActive env.storeConfig = false := by
    rw [henv]
    cases cdis with
    | none => rfl
    | some cc =>
      have hcc : cc.enabled = false := by
        simpa [globalDisabled] using hdis
      simp [globalOverrideActive, hcc]
  constructor
  · refine ⟨?_, ?_, ?_⟩
    · rw [hloop]
      exact (scheduleSitesLoop_none_iff env env.storeSites _).mpr hvalid
    · rw [hloop, scheduleSitesLoop_globalJob]
    · intro s hs hcs
      rw [hloop,
        scheduleSitesLoop_countKey_mem env env.storeSites _ s hnd hvalid hs,
        hovf, hcs]
      simp
  · have hrun : scheduleGlobalTask env (some c) st =
        ({ { st with globalScheduleJob := none, jobs := [] } with
            globalScheduleJob :=
              some ⟨c.id, c, mkCron c.minute c.hour, c.timezone⟩ }, none) := by
      simp [scheduleGlobalTask, hen, hov, hcron, stopAllIndividualJobs]
    rw [hrun]
    exact ⟨rfl, rfl, rfl⟩

/-- C3 witness: a store with one custom-scheduled site; the disabled
config yields exactly one individual job for it and no global job; the
enabled overriding config empties the registry and installs the global
job at 0 9 * * *. -/
theorem c3_reconfigure_tiers_witness :
    ((scheduleGlobalTask
        ⟨none, [⟨"s1", "S1", some "30 14 * * *", none, false, false⟩],
          fun e => e == "30 14 * * *" || e == "0 9 * * *"⟩
        none ⟨[], [], none⟩).1.globalScheduleJob = none
      ∧ countKey (scheduleGlobalTask
        ⟨none, [⟨"s1", "S1", some "30 14 * * *", none, false, false⟩],
          fun e => e == "30 14 * * *" || e == "0 9 * * *"⟩
        none ⟨[], [], none⟩).1.jobs "s1" = 1)
    ∧ ((scheduleGlobalTask
        ⟨none, [⟨"s1", "S1", some "30 14 * * *", none, false, false⟩],
          fun e => e == "30 14 * * *" || e == "0 9 * * *"⟩
        (some ⟨"cfg", true, true, 9, 0, "UTC", 30⟩) ⟨[], [], none⟩).1.jobs
          = []
      ∧ (scheduleGlobalTask
        ⟨none, [⟨"s1", "S1", some "30 14 * * *", none, false, false⟩],
          fun e => e == "30 14 * * *" || e == "0 9 * * *"⟩
        (some ⟨"cfg", true, true, 9, 0, "UTC", 30⟩)
        ⟨[], [], none⟩).1.globalScheduleJob
          = some ⟨"cfg", ⟨"cfg", true, true, 9, 0, "UTC", 30⟩,
              "0 9 * * *", "UTC"⟩) := by
  have h := c3_reconfigure_tiers
    ⟨none, [⟨"s1", "S1", some "30 14 * * *", none, false, false⟩],
      fun e => e == "30 14 * * *" || e == "0 9 * * *"⟩
    ⟨[], [], none⟩ none ⟨"cfg", true, true, 9, 0, "UTC", 30⟩
    rfl (by decide) (by decide) (by decide) (by decide) (by decide)
    (by decide)
  refine ⟨⟨h.1.2.1, ?_⟩, ⟨h.2.2.1, ?_⟩⟩
  · exact h.1.2.2 ⟨"s1", "S1", some "30 14 * * *", none, false, false⟩
      (by decide) (by decide)
  · have := h.2.2.2
    simpa [mkCron] using this

/-- C1 (code bug at scheduler.js line 316): the pacing delay used
between consecutive checks of a global firing is `config.interval` of
the closure-captured install-time config, not the freshly re-read
`latestConfig.interval` — here the batch sleeps 30 seconds although the
store says 60 at fire time, contradicting the comment at line 314
(use the latest interval config) and the spec. -/
theorem c1_pacing_delay_uses_captured_interval :
    (globalFire c1Job c1Env).delays = [30]
    ∧ (c1Env.configs.find? (fun c => c.id == c1Job.configId)).map
        (fun c => c.interval) = some 60
    ∧ c1Job.capturedConfig.interval = 30 := by
  decide

/-- C2 counterexample: a pinned site with no custom schedule sits in the
global candidate set and is checked by the global firing, so the claim
that a global firing never includes a pinned site is false. -/
theorem c2_counterexample_pinned_in_global :
    c2Pinned.pinned = true
    ∧ c2Pinned ∈ globalCandidates false [c2Pinned]
    ∧ (globalFire c2Job c2Env).checked = ["sp"] := by
  decide

/-- C2 amended: pinned sites are excluded from category batch
membership (and a category firing checks exactly the non-pinned
members), but the global candidate set does not exclude pinned sites:
it admits any site passing the schedule filter, pinned or not. -/
theorem c2_pinned_scope (cat : Category) (s : Site) (sites : List Site)
    (cid : String) (cats : List Category)
    (check : Site → Except String CheckResult) :
    (cats.find? (fun c => c.id == cid) = some cat →
      (categoryFire cid cats check).checked
        = (categoryBatchMembers cat).map (fun t => t.id))
    ∧ (s ∈ cat.sites → s.pinned = true → s ∉ categoryBatchMembers cat)
    ∧ (s ∈ sites → s.pinned = true → hasCustomSchedule s = false →
        s ∈ globalCandidates false sites)
    ∧ (s ∈ sites → s ∈ globalCandidates true sites) := by
  refine ⟨?_, ?_, ?_, ?_⟩
  · intro hfind
    exact categoryFire_checked cid cats check cat hfind
  · intro _ hp hin
    rw [categoryBatchMembers, List.mem_filter, hp] at hin
    simp at hin
  · intro hmem hp hcs
    rw [globalCandidates]
    simp only [Bool.false_eq_true, if_false]
    exact List.mem_filter.mpr ⟨hmem, by rw [hcs]; rfl⟩
  · intro hmem
    rw [globalCandidates]
    simpa using hmem

/-- C2 amended witness: the pinned site is not a category batch member
(the category firing checks nobody) yet belongs to the global candidate
set under both override settings. -/
theorem c2_pinned_scope_witness :
    ((categoryFire "c" [c2Cat] quietCheck).checked
        = (categoryBatchMembers c2Cat).map (fun t => t.id))
    ∧ c2Pinned ∉ categoryBatchMembers c2Cat
    ∧ c2Pinned ∈ globalCandidates false [c2Pinned]
    ∧ c2Pinned ∈ globalCandidates true [c2Pinned] := by
  have h := c2_pinned_scope c2Cat c2Pinned [c2Pinned] "c" [c2Cat] quietCheck
  exact ⟨h.1 (by decide), h.2.1 (by decide) (by decide),
    h.2.2.1 (by decide) (by decide) (by decide), h.2.2.2 (by decide)⟩

/-- C9 counterexample: with a malformed site expression, the async
`scheduleSite` rejects, nothing is scheduled, yet `onSiteUpdated` — the
hook the site CRUD layer calls — discards the rejection, so the caller
observes no error: the failure does not surface synchronously there. -/
theorem c9_counterexample_silent_failure :
    (scheduleSite c9Env c9BadSite c9St).2
      = some (SchedErr.invalidCron "not a cron")
    ∧ (onSiteUpdated c9Env c9BadSite c9St).2 = none
    ∧ countKey (onSiteUpdated c9Env c9BadSite c9St).1.jobs "sx" = 0 := by
  decide

/-- C9 amended: a malformed schedule expression surfaces synchronously
through `scheduleGlobalTask` (awaited by the config CRUD handler) and
through an awaited `scheduleSite`, but the fire-and-forget
`onSiteUpdated` hook never delivers it to its caller. -/
theorem c9_error_surfacing (env : InstallEnv) (site : Site)
    (st : SchedState) (cdis : Option ScheduleConfig)
    (henv : env.storeConfig = cdis)
    (hdis : globalDisabled cdis = true)
    (hsite : site ∈ env.storeSites)
    (herr : siteInstallErr env site = true) :
    (scheduleGlobalTask env cdis st).2.isSome = true
    ∧ (scheduleSite env site st).2.isSome = true
    ∧ (onSiteUpdated env site st).2 = none := by
  have hloop : scheduleGlobalTask env cdis st =
      scheduleSitesLoop env env.storeSites
        { st with globalScheduleJob := none } := by
    cases cdis with
    | none => rfl
    | some cc =>
      have hcc : cc.enabled = false := by
        simpa [globalDisabled] using hdis
      simp [scheduleGlobalTask, hcc]
  refine ⟨?_, ?_, rfl⟩
  · rw [hloop]
    have hne : (scheduleSitesLoop env env.storeSites
        { st with globalScheduleJob := none }).2 ≠ none := by
      intro hnone
      have hall := (scheduleSitesLoop_none_iff env env.storeSites _).mp hnone
      have hcontra := hall site hsite
      rw [herr] at hcontra
      simp at hcontra
    exact Option.ne_none_iff_isSome.mp hne
  · rw [scheduleSite_snd, herr]
    simp

/-- C9 amended witness: the concrete malformed-cron scenario. -/
theorem c9_error_surfacing_witness :
    (scheduleGlobalTask c9Env none c9St).2.isSome = true
    ∧ (scheduleSite c9Env c9BadSite c9St).2.isSome = true
    ∧ (onSiteUpdated c9Env c9BadSite c9St).2 = none :=
  c9_error_surfacing c9Env c9BadSite c9St none rfl (by decide) (by decide)
    (by decide)
